import Mathlib

/-!
Shallow embedding of the acemind-backend quiz pipeline, session-security and
grading code (modelConfig.mjs, the multi-stage generator, the quiz-session
store and the submit-quiz route), with theorems checking the specification's
claims against it.

JavaScript numbers are modelled as exact integers/rationals (the program only
performs integer arithmetic and one division whose float rounding is ignored);
`NaN` is modelled explicitly where the code can produce it.  A thrown
exception is modelled as `Except.error`.
-/

namespace Acemind

/-! ## Text normalization (`normalizeText` in the generator module)

JS source: `String(text).toLowerCase().replace(/\s+/g, " ").trim()`. -/

/-- Whitespace characters recognised by the JS `\s` class (the ones that can
occur in this program's strings). -/
def isWS (c : Char) : Bool :=
  c = ' ' || c = '\t' || c = '\n' || c = '\r' || c = '\x0b' || c = '\x0c'

/-- `replace(/\s+/g, " ")` on a character list: every maximal run of
whitespace becomes a single space. -/
def collapseWS : List Char → List Char
  | [] => []
  | [c] => [if isWS c then ' ' else c]
  | c1 :: c2 :: rest =>
    if isWS c1 && isWS c2 then collapseWS (c2 :: rest)
    else (if isWS c1 then ' ' else c1) :: collapseWS (c2 :: rest)

/-- `String.prototype.trim` restricted to the space character (after
`collapseWS` every whitespace run is already a single space). -/
def trimSpaces (l : List Char) : List Char :=
  ((l.dropWhile isWS).reverse.dropWhile isWS).reverse

/-- `normalizeText(text)`: lowercase, collapse whitespace runs to one space,
trim. -/
def normalizeText (s : String) : String :=
  String.mk (trimSpaces (collapseWS (s.data.map Char.toLower)))

/-! ## Session hash (`generateQuizHash` / `verifyQuizHash`)

The SHA-256 digest is a library primitive, not repository code; the
development is parameterized by an arbitrary digest function `sha` and the
process-wide secret. -/

/-- `generateQuizHash(quizId, startTime, timeLimit)`:
digest of `` `${quizId}-${startTime}-${timeLimit}-${SECRET_KEY}` ``. -/
def generateQuizHash (sha : String → String) (secretKey : String)
    (quizId : String) (startTime timeLimit : Int) : String :=
  sha (quizId ++ "-" ++ toString startTime ++ "-" ++ toString timeLimit ++ "-" ++ secretKey)

/-- `verifyQuizHash(quizId, startTime, timeLimit, hash)`: recompute and
compare. -/
def verifyQuizHash (sha : String → String) (secretKey : String)
    (quizId : String) (startTime timeLimit : Int) (hash : String) : Bool :=
  generateQuizHash sha secretKey quizId startTime timeLimit == hash

/-! ## Quiz submission validation (`validateQuizSubmission`) -/

/-- A submitted `userAnswers` value.  The route and the validator only ever
distinguish a real JS array (of `null`-or-integer entries) from a non-array
value; `jsNull` stands for the latter (the concrete value `null`). -/
inductive UserAnswers where
  | jsNull : UserAnswers
  | arr : List (Option Int) → UserAnswers
deriving DecidableEq, Repr

structure SubmissionParams where
  quizId : String
  startTime : Int
  submitTime : Int
  timeLimit : Int
  sessionHash : String
  userAnswers : UserAnswers
  correctAnswers : List Int
deriving Repr

structure ValidationResult where
  isValid : Bool
  errors : List String
  actualTimeTaken : Int
deriving DecidableEq, Repr

/-- The errors pushed by the `userAnswers.forEach` loop:
`answer !== null && (answer < 0 || answer > 3)` pushes
`"Invalid answer value at question ${index + 1}"`. -/
def answerValueErrors (l : List (Option Int)) : List String :=
  l.enum.foldl
    (fun acc p =>
      match p.2 with
      | none => acc
      | some v =>
        if v < 0 ∨ v > 3 then
          acc ++ ["Invalid answer value at question " ++ toString (p.1 + 1)]
        else acc)
    []

/-- `validateQuizSubmission(params)`.  Checks are collected into `errors` in
source order: session hash, elapsed-time upper bound, elapsed-time lower
bound, array shape, answer count, answer values.  When `userAnswers` is not
an array, the JS code throws a `TypeError` at `userAnswers.length`
(modelled as `Except.error`). -/
def validateQuizSubmission (sha : String → String) (secretKey : String)
    (p : SubmissionParams) : Except String ValidationResult :=
  let e1 : List String :=
    if verifyQuizHash sha secretKey p.quizId p.startTime p.timeLimit p.sessionHash
    then [] else ["Invalid quiz session"]
  let actualTimeTaken : Int := Int.fdiv (p.submitTime - p.startTime) 1000
  let maxAllowedTime : Int := p.timeLimit + 5
  let e2 := e1 ++ (if actualTimeTaken > maxAllowedTime then ["Time limit exceeded"] else [])
  let e3 := e2 ++ (if actualTimeTaken < 0 then ["Invalid submission time"] else [])
  let e4 := e3 ++ (match p.userAnswers with
    | .arr _ => []
    | _ => ["Invalid answer format"])
  match p.userAnswers with
  | .jsNull =>
    -- `userAnswers.length` on null: TypeError is thrown, the collected
    -- errors are lost.
    .error "TypeError: Cannot read properties of null (reading length)"
  | .arr l =>
    let e5 := e4 ++ (if l.length ≠ p.correctAnswers.length then ["Answer count mismatch"] else [])
    let e6 := e5 ++ answerValueErrors l
    .ok { isValid := e6.isEmpty, errors := e6, actualTimeTaken := actualTimeTaken }

/-! ## Grading (`calculateScore`) -/

/-- A JS number that is either a real (exact) number or `NaN`. -/
inductive JSNum where
  | nan : JSNum
  | int : Int → JSNum
deriving DecidableEq, Repr

structure Mistake where
  questionIndex : Nat
  userAnswer : Option Int
  correctAnswer : Int
deriving DecidableEq, Repr

structure ScoreDetails where
  totalQuestions : Nat
  correctAnswers : Nat
  wrongAnswers : Nat
  score : JSNum
  mistakes : List Mistake
deriving DecidableEq, Repr

/-- JS `Math.round`: round half toward positive infinity. -/
def jsMathRound (q : ℚ) : Int := ⌊q + 1/2⌋

/-- `calculateScore(userAnswers, correctAnswers)`.  The `forEach` loop
counting correct answers and pushing mistakes is a left fold; an
out-of-range read `userAnswers[index]` yields `undefined` in JS which, like
`null`, is `!==` any integer — both are modelled as `none`.  With an empty
`correctAnswers` the JS expression `correctCount / 0` is `0 / 0 = NaN` and
`Math.round(NaN)` is `NaN`. -/
def calculateScore (userAnswers : List (Option Int)) (correctAnswers : List Int) :
    ScoreDetails :=
  let acc := correctAnswers.enum.foldl
    (fun (acc : Nat × List Mistake) (p : Nat × Int) =>
      let userAnswer := (userAnswers.getD p.1 none)
      if userAnswer = some p.2 then (acc.1 + 1, acc.2)
      else (acc.1, acc.2 ++ [⟨p.1, userAnswer, p.2⟩]))
    ((0 : Nat), ([] : List Mistake))
  let score : JSNum :=
    if correctAnswers.length = 0 then JSNum.nan
    else JSNum.int (jsMathRound (((acc.1 : ℚ) / (correctAnswers.length : ℚ)) * 100))
  { totalQuestions := correctAnswers.length
    correctAnswers := acc.1
    wrongAnswers := correctAnswers.length - acc.1
    score := score
    mistakes := acc.2 }

/-! ## Client sanitization (`sanitizeQuestionsForClient`) -/

/-- The server-held question record (the shape stored in a quiz session). -/
structure QuestionRecord where
  question : String
  options : List String
  difficulty : String
  correctAnswer : Int
  explanation : String
deriving DecidableEq, Repr

/-- The client-facing projection: question, options, difficulty only. -/
structure SanitizedQuestion where
  question : String
  options : List String
  difficulty : String
deriving DecidableEq, Repr

/-- `sanitizeQuestionsForClient(questions)`: keep exactly
`question`, `options`, `difficulty`. -/
def sanitizeQuestionsForClient (questions : List QuestionRecord) :
    List SanitizedQuestion :=
  questions.map fun q =>
    { question := q.question, options := q.options, difficulty := q.difficulty }

/-! ## Stage 5: `verifyAndReconcileQuestion` -/

/-- A question record as it flows between stages 2–5:
question text, options, the correct answer as text, explanation. -/
structure QuestionData where
  question : String
  options : List String
  correctAnswerText : String
  explanation : String
deriving DecidableEq, Repr

/-- The verified record produced by stage 5. -/
structure VerifiedQuestion where
  question : String
  options : List String
  correctAnswer : Nat
  explanation : String
  verified : Bool
deriving DecidableEq, Repr

/-- `verifyAndReconcileQuestion(questionData, index)`: find the first option
whose normalized text equals the normalized `correctAnswerText`
(JS `findIndex`, −1 = not found modelled by `findIdx? = none`); then require
`new Set(options.map(normalizeText)).size === 4` (the number of distinct
normalized options, `dedup.length` here).  Throws otherwise. -/
def verifyAndReconcileQuestion (qd : QuestionData) : Except String VerifiedQuestion :=
  match qd.options.findIdx? (fun opt => normalizeText opt == normalizeText qd.correctAnswerText) with
  | none => .error "correctAnswerText not found in options"
  | some correctIndex =>
    if (qd.options.map normalizeText).dedup.length ≠ 4 then
      .error "Contains duplicate options"
    else
      .ok { question := qd.question, options := qd.options,
            correctAnswer := correctIndex, explanation := qd.explanation,
            verified := true }

/-! ## Stage 4: `factCheckAndCorrectQuestions` -/

/-- One element of a fact-check response batch (parsed LLM JSON). -/
structure CorrectedQuestion where
  question : String
  options : List String
  correctAnswerText : String
  explanation : String
  corrected : Bool
  corrections : String
deriving DecidableEq, Repr

/-- The per-item projection applied to an accepted fact-check batch
(drops the `corrected`/`corrections` bookkeeping fields). -/
def cleanCorrected (c : CorrectedQuestion) : QuestionData :=
  { question := c.question, options := c.options,
    correctAnswerText := c.correctAnswerText, explanation := c.explanation }

/-- The `for (let i = 0; i < n; i += BATCH_SIZE) batches.push(slice(i, i+5))`
loop: split a list into consecutive chunks of 5 (a final shorter chunk holds
the remainder). -/
def chunksOf5 : List QuestionData → List (List QuestionData)
  | [] => []
  | a :: b :: c :: d :: e :: rest => [a, b, c, d, e] :: chunksOf5 rest
  | l => [l]

/-- The batch loop of stage 4.  `respond i batch` is the parsed LLM response
for mini-batch number `i` (`none` = not an array).  A response whose length
matches the batch is cleaned and appended; otherwise the original batch is
appended unmodified (fail-open). -/
def factCheckMerge (respond : Nat → List QuestionData → Option (List CorrectedQuestion))
    (batches : List (List QuestionData)) : List QuestionData :=
  batches.enum.foldl
    (fun acc p =>
      match respond p.1 p.2 with
      | some correctedBatch =>
        if correctedBatch.length = p.2.length then acc ++ correctedBatch.map cleanCorrected
        else acc ++ p.2
      | none => acc ++ p.2)
    []

/-- The final duplicate sweep of stage 4: `filter` with a `seen` set of
normalized question texts, keeping the first occurrence. -/
def dedupeByNorm : List QuestionData → List String → List QuestionData
  | [], _ => []
  | q :: rest, seen =>
    let n := normalizeText q.question
    if n ∈ seen then dedupeByNorm rest seen
    else q :: dedupeByNorm rest (n :: seen)

/-- `factCheckAndCorrectQuestions(questionsWithAnswers, …)`: split into
mini-batches of 5, merge each batch's (fail-open) result, then, when the
distinct-normalized-question count differs from the length, remove
duplicates keeping first occurrences. -/
def factCheckAndCorrectQuestions
    (respond : Nat → List QuestionData → Option (List CorrectedQuestion))
    (questionsWithAnswers : List QuestionData) : List QuestionData :=
  let batches := chunksOf5 questionsWithAnswers
  let allCorrectedQuestions := factCheckMerge respond batches
  if (allCorrectedQuestions.map (fun q => normalizeText q.question)).dedup.length
      ≠ allCorrectedQuestions.length then
    dedupeByNorm allCorrectedQuestions []
  else
    allCorrectedQuestions

/-! ## Stage 1: `generateQuestionsOnly` and its outer retry loop -/

/-- JS `String.prototype.trim` (for the whitespace characters this program
meets). -/
def jsTrim (s : String) : String := String.mk (trimSpaces s.data)

/-- `generateQuestionsOnly(topic, difficulty, questionCount, …)` as a function
of the parsed LLM response (`none` = `JSON.parse` result not an array; the
elements are already coerced with `String(q)`).  Fewer than `questionCount`
elements throws; more are trimmed to the first `questionCount`; a duplicate
among the kept questions (case/whitespace-insensitive) throws. -/
def generateQuestionsOnly (resp : Option (List String)) (questionCount : Nat) :
    Except String (List String) :=
  match resp with
  | none => .error "Response is not an array"
  | some questions =>
    if questions.length < questionCount then
      .error ("Expected " ++ toString questionCount ++ " questions, got "
        ++ toString questions.length)
    else
      let trimmedQuestions := (questions.take questionCount).map jsTrim
      if (trimmedQuestions.map normalizeText).dedup.length ≠ trimmedQuestions.length then
        .error "AI generated duplicate question(s). Retrying for unique questions..."
      else
        .ok trimmedQuestions

/-- The stage-1 retry loop in `generateWithMultiStage`
(`maxRetries = 2`, 2000 ms sleep before each retry), unrolled.  `resp n` is
the parsed response of attempt `n`; the second component lists the sleeps
performed (in ms). -/
def stage1WithRetry (resp : Nat → Option (List String)) (questionCount : Nat) :
    Except String (List String) × List Nat :=
  match generateQuestionsOnly (resp 0) questionCount with
  | .ok v => (.ok v, [])
  | .error _ =>
    match generateQuestionsOnly (resp 1) questionCount with
    | .ok v => (.ok v, [2000])
    | .error _ =>
      match generateQuestionsOnly (resp 2) questionCount with
      | .ok v => (.ok v, [2000, 2000])
      | .error e => (.error e, [2000, 2000])

/-! ## Quiz session store and the `/api/submit-quiz` route

Firestore's `quizSessions` collection is modelled as an association list
keyed by session id. -/

/-- The session document stored at generation time (the fields the submit
route reads). -/
structure StoredSession where
  questions : List QuestionRecord
  startTime : Int
  timeLimit : Int
  topic : String
  difficulty : String
  expiresAt : Int
deriving DecidableEq, Repr

/-- The session store: Firestore document id ↦ session document. -/
abbrev Store := List (String × StoredSession)

/-- `doc(sessionId).set(...)` (overwrite semantics). -/
def storeSet (store : Store) (sid : String) (s : StoredSession) : Store :=
  (store.filter fun p => p.1 != sid) ++ [(sid, s)]

/-- `deleteQuizSession(sessionId)`. -/
def deleteQuizSession (store : Store) (sid : String) : Store :=
  store.filter fun p => p.1 != sid

/-- `getQuizSession(sessionId)`: `none` when absent; an expired session
(`session.expiresAt && now > session.expiresAt`, truthiness = nonzero) is
deleted on access and reported absent. -/
def getQuizSession (now : Int) (store : Store) (sid : String) :
    Option StoredSession × Store :=
  match store.lookup sid with
  | none => (none, store)
  | some session =>
    if session.expiresAt != 0 && now > session.expiresAt then
      (none, deleteQuizSession store sid)
    else
      (some session, store)

structure SubmitRequest where
  sessionId : String
  sessionHash : String
  userAnswers : UserAnswers
  submitTime : Int
deriving DecidableEq, Repr

/-- One entry of the route's `detailedMistakes`. -/
structure DetailedMistake where
  questionIndex : Nat
  question : String
  userAnswer : String
  correctAnswer : String
  explanation : String
  options : List String
deriving DecidableEq, Repr

instance : Inhabited QuestionRecord :=
  ⟨{ question := "", options := [], difficulty := "", correctAnswer := 0, explanation := "" }⟩

/-- JS array indexing by a (possibly negative) integer; out of range is
`undefined`. -/
def optionAt (options : List String) (i : Int) : String :=
  if i < 0 then "undefined" else options.getD i.toNat "undefined"

/-- The route's per-mistake enrichment using the stored question record. -/
def buildDetailedMistake (questions : List QuestionRecord) (m : Mistake) :
    DetailedMistake :=
  let question := questions.getD m.questionIndex default
  { questionIndex := m.questionIndex
    question := question.question
    userAnswer := match m.userAnswer with
      | some v => optionAt question.options v
      | none => "Not answered"
    correctAnswer := optionAt question.options m.correctAnswer
    explanation := question.explanation
    options := question.options }

/-- The `results` object assembled by the route. -/
structure QuizResults where
  scoreDetails : ScoreDetails
  timeTaken : Int
  timeLimit : Int
  topic : String
  difficulty : String
  detailedMistakes : List DetailedMistake
  submittedAt : Int
deriving DecidableEq, Repr

inductive SubmitResponse where
  | badRequest (message : String)
  | notFound (message : String)
  | invalidSubmission (message : String) (errors : List String)
  | serverError (message : String)
  | success (results : QuizResults)
deriving DecidableEq, Repr

/-- The answer list carried by a (validated, hence array-shaped)
`userAnswers` value. -/
def answersList : UserAnswers → List (Option Int)
  | .arr l => l
  | .jsNull => []

/-- The `/api/submit-quiz` route as a state transition on the session store.
Falsy required fields (`""`, `null`, `0`) → 400; missing/expired session →
404; failed validation → 400 with the error list (session kept); otherwise
grade, build results, delete the session, 200. -/
def submitQuiz (sha : String → String) (secretKey : String) (now : Int)
    (store : Store) (req : SubmitRequest) : SubmitResponse × Store :=
  if req.sessionId = "" ∨ req.sessionHash = "" ∨ req.userAnswers = UserAnswers.jsNull
      ∨ req.submitTime = 0 then
    (.badRequest "Missing required fields", store)
  else
    match getQuizSession now store req.sessionId with
    | (none, store1) => (.notFound "Quiz session not found or expired", store1)
    | (some session, store1) =>
      match validateQuizSubmission sha secretKey
          { quizId := req.sessionId, startTime := session.startTime,
            submitTime := req.submitTime, timeLimit := session.timeLimit,
            sessionHash := req.sessionHash, userAnswers := req.userAnswers,
            correctAnswers := session.questions.map (fun q => q.correctAnswer) } with
      | .error e => (.serverError e, store1)
      | .ok validation =>
        if !validation.isValid then
          (.invalidSubmission "Invalid quiz submission" validation.errors, store1)
        else
          let scoreDetails := calculateScore (answersList req.userAnswers)
            (session.questions.map (fun q => q.correctAnswer))
          let detailedMistakes :=
            scoreDetails.mistakes.map (buildDetailedMistake session.questions)
          let results : QuizResults :=
            { scoreDetails := scoreDetails
              timeTaken := validation.actualTimeTaken
              timeLimit := session.timeLimit
              topic := session.topic
              difficulty := session.difficulty
              detailedMistakes := detailedMistakes
              submittedAt := req.submitTime }
          (.success results, deleteQuizSession store1 req.sessionId)

/-! ### Trace semantics for the session lifecycle -/

/-- Externally triggered store events: quiz generation stores a session;
a client submits. -/
inductive Op where
  | create (sid : String) (sess : StoredSession)
  | submit (now : Int) (req : SubmitRequest)

def isSuccess : SubmitResponse → Bool
  | .success _ => true
  | _ => false

/-- Run a list of operations from a store, counting the successful (graded)
submissions for the session id `sid`. -/
def runCount (sha : String → String) (secretKey : String) (sid : String) :
    Store → List Op → Store × Nat
  | store, [] => (store, 0)
  | store, Op.create s sess :: rest =>
    runCount sha secretKey sid (storeSet store s sess) rest
  | store, Op.submit now req :: rest =>
    let step := submitQuiz sha secretKey now store req
    let tail := runCount sha secretKey sid step.2 rest
    (tail.1, (if isSuccess step.1 && req.sessionId == sid then 1 else 0) + tail.2)

/-- Number of `create` events for `sid` in a trace. -/
def createCount (sid : String) (ops : List Op) : Nat :=
  ops.countP fun op =>
    match op with
    | Op.create s _ => s == sid
    | _ => false

/-! ## Spec-side definitions

These restate, in the specification's vocabulary, what the validator is
claimed to collect; the theorems compare them with the source-derived
definitions above. -/

/-- Spec reading of check (d): one error per non-null answer outside
`[0, 3]`, in position order. -/
def answerValueErrorsSpec (l : List (Option Int)) : List String :=
  l.enum.filterMap fun p =>
    match p.2 with
    | none => none
    | some v =>
      if v < 0 ∨ v > 3 then
        some ("Invalid answer value at question " ++ toString (p.1 + 1))
      else none

/-- Spec reading of the full collected error list of `validateSubmission`:
the four checks in order, none short-circuited. -/
def specCollectedErrors (sha : String → String) (secretKey : String)
    (p : SubmissionParams) (l : List (Option Int)) : List String :=
  (if generateQuizHash sha secretKey p.quizId p.startTime p.timeLimit = p.sessionHash
   then [] else ["Invalid quiz session"])
  ++ (if p.timeLimit + 5 < Int.fdiv (p.submitTime - p.startTime) 1000
      then ["Time limit exceeded"] else [])
  ++ (if Int.fdiv (p.submitTime - p.startTime) 1000 < 0
      then ["Invalid submission time"] else [])
  ++ (if l.length = p.correctAnswers.length then [] else ["Answer count mismatch"])
  ++ answerValueErrorsSpec l

end Acemind

namespace Acemind

/-! # Theorems -/

/-! ## General helper lemmas -/

/-- A list's dedup has the same length as the list iff the list has no
duplicates (JS `new Set(xs).size === xs.length`). -/
theorem dedup_length_eq_iff {α : Type} [DecidableEq α] (l : List α) :
    l.dedup.length = l.length ↔ l.Nodup := by
  constructor
  · intro h
    rw [← List.dedup_eq_self]
    exact (List.dedup_sublist l).eq_of_length h
  · intro h
    rw [List.dedup_eq_self.mpr h]

/-- The error-pushing `forEach` of `validateQuizSubmission` collects exactly
the spec-side `filterMap`. -/
theorem answerValueErrors_eq (l : List (Option Int)) :
    answerValueErrors l = answerValueErrorsSpec l := by
  have gen : ∀ (ps : List (Nat × Option Int)) (acc : List String),
      ps.foldl
        (fun acc p =>
          match p.2 with
          | none => acc
          | some v =>
            if v < 0 ∨ v > 3 then
              acc ++ ["Invalid answer value at question " ++ toString (p.1 + 1)]
            else acc)
        acc
      = acc ++ ps.filterMap (fun p =>
          match p.2 with
          | none => none
          | some v =>
            if v < 0 ∨ v > 3 then
              some ("Invalid answer value at question " ++ toString (p.1 + 1))
            else none) := by
    intro ps
    induction ps with
    | nil => simp
    | cons p ps ih =>
      intro acc
      obtain ⟨i, a⟩ := p
      rw [List.foldl_cons, List.filterMap_cons]
      cases a with
      | none => exact (ih acc).trans rfl
      | some v =>
        by_cases hv : v < 0 ∨ v > 3
        · simp only [hv, if_true, ih]
          try simp
        · simp only [hv, if_false, ih]
          try simp
  rw [answerValueErrors, answerValueErrorsSpec, gen l.enum [], List.nil_append]

/-- Every string produced by the answer-value check has length ≥ 33, so it
is never confused with the other (shorter) error strings. -/
theorem answerValueErrorsSpec_length {l : List (Option Int)} {s : String}
    (h : s ∈ answerValueErrorsSpec l) : 33 ≤ s.length := by
  rw [answerValueErrorsSpec] at h
  obtain ⟨p, _, hp⟩ := List.mem_filterMap.mp h
  split at hp
  · cases hp
  · split at hp
    · obtain rfl := Option.some.inj hp
      rw [String.length_append]
      have h33 : ("Invalid answer value at question " : String).length = 33 := by decide
      omega
    · cases hp

/-- On an array-valued `userAnswers`, `validateQuizSubmission` returns (never
throws), its elapsed time is the floored second count, its error list is the
complete spec-side collection, and validity is emptiness of that list. -/
theorem validate_arr (sha : String → String) (secretKey : String)
    (p : SubmissionParams) (l : List (Option Int)) (h : p.userAnswers = .arr l) :
    validateQuizSubmission sha secretKey p
      = .ok { isValid := (specCollectedErrors sha secretKey p l).isEmpty,
              errors := specCollectedErrors sha secretKey p l,
              actualTimeTaken := Int.fdiv (p.submitTime - p.startTime) 1000 } := by
  rw [validateQuizSubmission, h]
  simp only [specCollectedErrors, verifyQuizHash, beq_iff_eq, answerValueErrors_eq,
    gt_iff_lt, ne_eq, ite_not, List.append_assoc, List.nil_append, List.append_nil]

/-- Extract the exact validation result on array-valued answers. -/
theorem validate_ok_eq (sha : String → String) (secretKey : String)
    (p : SubmissionParams) (l : List (Option Int)) (r : ValidationResult)
    (hu : p.userAnswers = .arr l)
    (hr : validateQuizSubmission sha secretKey p = .ok r) :
    r = { isValid := (specCollectedErrors sha secretKey p l).isEmpty,
          errors := specCollectedErrors sha secretKey p l,
          actualTimeTaken := Int.fdiv (p.submitTime - p.startTime) 1000 } := by
  have h := validate_arr sha secretKey p l hu
  rw [hr] at h
  exact Except.ok.inj h

theorem mem_ite_single {c : Prop} [Decidable c] {s x : String} :
    s ∈ (if c then [x] else []) ↔ c ∧ s = x := by
  split <;> simp_all

theorem mem_ite_nil {c : Prop} [Decidable c] {s x : String} :
    s ∈ (if c then [] else [x]) ↔ ¬c ∧ s = x := by
  split <;> simp_all

/-- Which short strings appear in the collected error list, and when. -/
theorem mem_specCollectedErrors_iff (sha : String → String) (secretKey : String)
    (p : SubmissionParams) (l : List (Option Int)) (s : String)
    (hlen : s.length < 33) :
    s ∈ specCollectedErrors sha secretKey p l ↔
      ((s = "Invalid quiz session"
          ∧ generateQuizHash sha secretKey p.quizId p.startTime p.timeLimit ≠ p.sessionHash)
       ∨ (s = "Time limit exceeded"
          ∧ p.timeLimit + 5 < Int.fdiv (p.submitTime - p.startTime) 1000)
       ∨ (s = "Invalid submission time"
          ∧ Int.fdiv (p.submitTime - p.startTime) 1000 < 0)
       ∨ (s = "Answer count mismatch" ∧ l.length ≠ p.correctAnswers.length)) := by
  have hE : s ∉ answerValueErrorsSpec l := fun hmem =>
    absurd (answerValueErrorsSpec_length hmem) (by omega)
  simp only [specCollectedErrors, List.mem_append, mem_ite_nil, mem_ite_single, hE, or_false]
  tauto

/-- The grading `forEach` loop (a left fold) counts exactly the matching
positions and pushes exactly the mismatching positions, in order. -/
theorem scoreFold_eq (ua : List (Option Int)) (ps : List (Nat × Int)) :
    ∀ (c0 : Nat) (m0 : List Mistake),
      ps.foldl
        (fun (acc : Nat × List Mistake) (p : Nat × Int) =>
          if ua.getD p.1 none = some p.2 then (acc.1 + 1, acc.2)
          else (acc.1, acc.2 ++ [⟨p.1, ua.getD p.1 none, p.2⟩]))
        (c0, m0)
      = (c0 + ps.countP (fun p => ua.getD p.1 none == some p.2),
         m0 ++ (ps.filter (fun p => ua.getD p.1 none != some p.2)).map
            (fun p => ⟨p.1, ua.getD p.1 none, p.2⟩)) := by
  induction ps with
  | nil => simp
  | cons p ps ih =>
    intro c0 m0
    by_cases hp : ua.getD p.1 none = some p.2
    · rw [List.foldl_cons, List.countP_cons, List.filter_cons]
      simp only [hp, if_true, ih, beq_iff_eq, bne_iff_ne, ne_eq, not_true_eq_false,
        if_false, decide_true_eq_true]
      refine congrArg₂ Prod.mk (by omega) rfl
    · rw [List.foldl_cons, List.countP_cons, List.filter_cons]
      simp only [hp, if_false, ih, beq_iff_eq, bne_iff_ne, ne_eq, not_false_eq_true,
        if_true, decide_false_eq_false]
      refine congrArg₂ Prod.mk (by omega) (by simp)

/-- C2: `sanitizeQuestionsForClient` output depends only on the question
text, options and difficulty — varying `correctAnswer` and `explanation`
arbitrarily leaves the output unchanged (two-run noninterference), and every
output record is exactly the three-field projection of an input record. -/
theorem sanitize_noninterference (qs : List QuestionRecord)
    (f : QuestionRecord → Int) (g : QuestionRecord → String) :
    sanitizeQuestionsForClient
        (qs.map fun q => { q with correctAnswer := f q, explanation := g q })
      = sanitizeQuestionsForClient qs
    ∧ ∀ s ∈ sanitizeQuestionsForClient qs, ∃ q ∈ qs,
        s = { question := q.question, options := q.options, difficulty := q.difficulty } := by
  constructor
  · rw [sanitizeQuestionsForClient, sanitizeQuestionsForClient, List.map_map]
    rfl
  · intro s hs
    obtain ⟨q, hq, rfl⟩ := List.mem_map.mp hs
    exact ⟨q, hq, rfl⟩

theorem sanitize_noninterference_witness :
    sanitizeQuestionsForClient
        [{ question := "Q", options := ["a", "b", "c", "d"], difficulty := "easy",
           correctAnswer := 2, explanation := "E" }]
      = sanitizeQuestionsForClient
        [{ question := "Q", options := ["a", "b", "c", "d"], difficulty := "easy",
           correctAnswer := 0, explanation := "" }]
    ∧ ∃ q ∈ [({ question := "Q", options := ["a", "b", "c", "d"], difficulty := "easy",
                correctAnswer := 0, explanation := "" } : QuestionRecord)],
        ({ question := "Q", options := ["a", "b", "c", "d"],
           difficulty := "easy" } : SanitizedQuestion)
          = { question := q.question, options := q.options, difficulty := q.difficulty } := by
  have h := sanitize_noninterference
    [{ question := "Q", options := ["a", "b", "c", "d"], difficulty := "easy",
       correctAnswer := 0, explanation := "" }] (fun _ => 2) (fun _ => "E")
  exact ⟨h.1, h.2 _ (by decide)⟩

/-- C3: the session binding is a deterministic pure function of
`(sessionId, startTime, timeLimit)` and the secret; `verifyQuizHash` is true
exactly when the supplied hash equals the recomputed digest; and a returned
validation result contains the invalid-session error iff the recomputed
digest differs from the supplied `sessionHash`. -/
theorem quizHash_binding_spec (sha : String → String) (secretKey : String)
    (q1 q2 : String) (s1 s2 t1 t2 : Int) (hash : String)
    (p : SubmissionParams) (l : List (Option Int)) (r : ValidationResult)
    (hq : q1 = q2) (hs : s1 = s2) (ht : t1 = t2)
    (hu : p.userAnswers = .arr l)
    (hr : validateQuizSubmission sha secretKey p = .ok r) :
    generateQuizHash sha secretKey q1 s1 t1 = generateQuizHash sha secretKey q2 s2 t2
    ∧ (verifyQuizHash sha secretKey q1 s1 t1 hash = true
        ↔ generateQuizHash sha secretKey q1 s1 t1 = hash)
    ∧ ("Invalid quiz session" ∈ r.errors
        ↔ generateQuizHash sha secretKey p.quizId p.startTime p.timeLimit ≠ p.sessionHash) := by
  subst hq hs ht
  obtain rfl := validate_ok_eq sha secretKey p l r hu hr
  refine ⟨rfl, by simp [verifyQuizHash], ?_⟩
  rw [mem_specCollectedErrors_iff sha secretKey p l _ (by decide)]
  constructor
  · rintro (⟨_, hc⟩ | ⟨h, _⟩ | ⟨h, _⟩ | ⟨h, _⟩)
    · exact hc
    all_goals exact absurd h (by decide)
  · intro hc
    exact Or.inl ⟨rfl, hc⟩

theorem quizHash_binding_spec_witness :
    verifyQuizHash id "secret" "s1" 1000 600 (generateQuizHash id "secret" "s1" 1000 600)
      = true := by
  have h := quizHash_binding_spec id "secret" "s1" "s1" 1000 1000 600 600
    (generateQuizHash id "secret" "s1" 1000 600)
    { quizId := "s1", startTime := 0, submitTime := 1000, timeLimit := 10,
      sessionHash := generateQuizHash id "secret" "s1" 0 10,
      userAnswers := .arr [], correctAnswers := [] }
    [] { isValid := true, errors := [], actualTimeTaken := 1 }
    rfl rfl rfl rfl rfl
  exact h.2.1.mpr rfl

/-- C4 counterexample: a submission one millisecond past
`(timeLimit + 5) * 1000` is accepted — the code floors the elapsed time to
whole seconds before comparing, so no time-limit error is raised. -/
theorem timeLimit_claim_counterexample :
    validateQuizSubmission id "secret"
      { quizId := "s1", startTime := 0, submitTime := (10 + 5) * 1000 + 1, timeLimit := 10,
        sessionHash := generateQuizHash id "secret" "s1" 0 10,
        userAnswers := .arr [], correctAnswers := [] }
      = .ok { isValid := true, errors := [], actualTimeTaken := 15 } := rfl

/-- C4 amended: a returned validation result contains the time-limit error
iff `floor((submitTime − startTime)/1000) > timeLimit + 5`, equivalently iff
`submitTime − startTime ≥ (timeLimit + 6) * 1000`; in particular the whole
second after the boundary is still accepted. -/
theorem timeLimit_grace_boundary (sha : String → String) (secretKey : String)
    (p : SubmissionParams) (l : List (Option Int)) (r : ValidationResult)
    (hu : p.userAnswers = .arr l)
    (hr : validateQuizSubmission sha secretKey p = .ok r) :
    ("Time limit exceeded" ∈ r.errors
      ↔ p.timeLimit + 5 < Int.fdiv (p.submitTime - p.startTime) 1000)
    ∧ ("Time limit exceeded" ∈ r.errors
      ↔ (p.timeLimit + 6) * 1000 ≤ p.submitTime - p.startTime) := by
  obtain rfl := validate_ok_eq sha secretKey p l r hu hr
  have hmem : "Time limit exceeded" ∈ specCollectedErrors sha secretKey p l
      ↔ p.timeLimit + 5 < Int.fdiv (p.submitTime - p.startTime) 1000 := by
    rw [mem_specCollectedErrors_iff sha secretKey p l _ (by decide)]
    constructor
    · rintro (⟨h, _⟩ | ⟨_, hc⟩ | ⟨h, _⟩ | ⟨h, _⟩)
      · exact absurd h (by decide)
      · exact hc
      all_goals exact absurd h (by decide)
    · intro hc
      exact Or.inr (Or.inl ⟨rfl, hc⟩)
  have harith : p.timeLimit + 5 < Int.fdiv (p.submitTime - p.startTime) 1000
      ↔ (p.timeLimit + 6) * 1000 ≤ p.submitTime - p.startTime := by
    rw [Int.fdiv_eq_ediv _ (by norm_num : (0:ℤ) ≤ 1000)]
    constructor
    · intro h
      exact (Int.le_ediv_iff_mul_le (by norm_num : (0:ℤ) < 1000)).mp (by omega)
    · intro h
      have := (Int.le_ediv_iff_mul_le (by norm_num : (0:ℤ) < 1000)).mpr h
      omega
  exact ⟨hmem, hmem.trans harith⟩

theorem timeLimit_grace_boundary_witness :
    "Time limit exceeded"
      ∈ (ValidationResult.mk false ["Time limit exceeded"] 16).errors := by
  have h := timeLimit_grace_boundary id "secret"
    { quizId := "s1", startTime := 0, submitTime := 16000, timeLimit := 10,
      sessionHash := generateQuizHash id "secret" "s1" 0 10,
      userAnswers := .arr [], correctAnswers := [] }
    [] (ValidationResult.mk false ["Time limit exceeded"] 16) rfl rfl
  exact h.2.mpr (by decide)

/-- C5 counterexample: with a non-array `userAnswers` (JS `null`) the
validator throws a `TypeError` at `userAnswers.length` instead of returning
the collected error list. -/
theorem validate_null_throws :
    validateQuizSubmission id "secret"
      { quizId := "s1", startTime := 0, submitTime := 1000, timeLimit := 10,
        sessionHash := "h", userAnswers := .jsNull, correctAnswers := [] }
      = .error "TypeError: Cannot read properties of null (reading length)" := rfl

/-- C5 amended: on array-valued `userAnswers` the validator never throws,
performs all four checks, returns the complete collected error list (in
source order: hash, elapsed upper bound, elapsed lower bound, count,
values), and is valid iff that list is empty; on a non-array it throws. -/
theorem validate_collects_all_checks (sha : String → String) (secretKey : String)
    (p : SubmissionParams) (l : List (Option Int)) (hu : p.userAnswers = .arr l) :
    ∃ r, validateQuizSubmission sha secretKey p = .ok r
      ∧ r.errors = specCollectedErrors sha secretKey p l
      ∧ r.actualTimeTaken = Int.fdiv (p.submitTime - p.startTime) 1000
      ∧ (r.isValid = true ↔ r.errors = []) := by
  refine ⟨_, validate_arr sha secretKey p l hu, rfl, rfl, ?_⟩
  simp

theorem validate_collects_all_checks_witness :
    (∃ r, validateQuizSubmission id "secret"
        { quizId := "s1", startTime := 0, submitTime := 16000, timeLimit := 10,
          sessionHash := "bad", userAnswers := .arr [some 7, none, some (-1)],
          correctAnswers := [0] }
        = .ok r
      ∧ r.errors = specCollectedErrors id "secret"
          { quizId := "s1", startTime := 0, submitTime := 16000, timeLimit := 10,
            sessionHash := "bad", userAnswers := .arr [some 7, none, some (-1)],
            correctAnswers := [0] } [some 7, none, some (-1)]
      ∧ r.actualTimeTaken = Int.fdiv ((16000 : Int) - 0) 1000
      ∧ (r.isValid = true ↔ r.errors = []))
    ∧ specCollectedErrors id "secret"
        { quizId := "s1", startTime := 0, submitTime := 16000, timeLimit := 10,
          sessionHash := "bad", userAnswers := .arr [some 7, none, some (-1)],
          correctAnswers := [0] } [some 7, none, some (-1)]
      = ["Invalid quiz session", "Time limit exceeded", "Answer count mismatch",
         "Invalid answer value at question 1", "Invalid answer value at question 3"] := by
  refine ⟨validate_collects_all_checks id "secret" _ _ rfl, ?_⟩
  rfl

/-- C7: for equal-length, non-empty inputs, grading counts position `i`
correct iff `userAnswers[i] === correctAnswers[i]` (null counting as
incorrect), reports the total, the complement count, the rounded-half-up
percentage, and the mistakes at exactly the incorrect positions in order,
with the user's (possibly null) answer and the correct index. -/
theorem calculateScore_spec (ua : List (Option Int)) (ca : List Int)
    (hlen : ua.length = ca.length) (hne : ca ≠ []) :
    (calculateScore ua ca).totalQuestions = ca.length
    ∧ (calculateScore ua ca).correctAnswers
        = ca.enum.countP (fun p => ua.getD p.1 none == some p.2)
    ∧ (calculateScore ua ca).wrongAnswers
        = ca.length - (calculateScore ua ca).correctAnswers
    ∧ (calculateScore ua ca).score
        = JSNum.int
            ⌊100 * ((ca.enum.countP (fun p => ua.getD p.1 none == some p.2) : ℚ))
              / (ca.length : ℚ) + 1/2⌋
    ∧ (calculateScore ua ca).mistakes
        = (ca.enum.filter (fun p => ua.getD p.1 none != some p.2)).map
            (fun p => ⟨p.1, ua.getD p.1 none, p.2⟩) := by
  have h0 : ca.length ≠ 0 := by
    simpa using List.length_eq_zero.not.mpr hne
  simp only [calculateScore, scoreFold_eq ua ca.enum 0 [], Nat.zero_add, List.nil_append,
    jsMathRound, if_neg h0]
  refine ⟨trivial, trivial, trivial, ?_, trivial⟩
  congr 2
  ring

theorem calculateScore_spec_witness :
    (calculateScore [some 0, none, some 2] [0, 0, 2]).totalQuestions = 3
    ∧ (calculateScore [some 0, none, some 2] [0, 0, 2]).correctAnswers = 2
    ∧ (calculateScore [some 0, none, some 2] [0, 0, 2]).wrongAnswers = 1
    ∧ (calculateScore [some 0, none, some 2] [0, 0, 2]).score = JSNum.int 67
    ∧ (calculateScore [some 0, none, some 2] [0, 0, 2]).mistakes
        = [{ questionIndex := 1, userAnswer := none, correctAnswer := 0 }] := by
  have h := calculateScore_spec [some 0, none, some 2] [0, 0, 2] (by decide) (by decide)
  refine ⟨h.1, by decide, by decide, ?_, by decide⟩
  have hc : List.countP
      (fun p => List.getD ([some 0, none, some 2] : List (Option Int)) p.1 none == some p.2)
      (List.enum ([0, 0, 2] : List Int)) = 2 := by decide
  rw [h.2.2.2.1, hc]
  congr 1
  norm_num

/-- C10: on empty inputs grading returns all-zero counts, no mistakes, and a
`NaN` score (the unguarded `0/0`); the score is a real number exactly when
`correctAnswers` is non-empty. -/
theorem calculateScore_empty_nan :
    calculateScore [] []
      = { totalQuestions := 0, correctAnswers := 0, wrongAnswers := 0,
          score := JSNum.nan, mistakes := [] }
    ∧ ∀ (ua : List (Option Int)) (ca : List Int), ca ≠ [] →
        ∃ m : Int, (calculateScore ua ca).score = JSNum.int m := by
  refine ⟨rfl, ?_⟩
  intro ua ca hne
  have h0 : ca.length ≠ 0 := by
    simpa using List.length_eq_zero.not.mpr hne
  simp only [calculateScore, if_neg h0]
  exact ⟨_, rfl⟩

theorem calculateScore_empty_nan_witness :
    (calculateScore [] []).score = JSNum.nan
    ∧ ∃ m : Int, (calculateScore [some 1] [1]).score = JSNum.int m := by
  exact ⟨by rw [calculateScore_empty_nan.1],
         calculateScore_empty_nan.2 [some 1] [1] (by decide)⟩

/-- C1 counterexample: stage 5 checks `Set(normalized options).size === 4`
but never checks `options.length === 4`, so a five-option record with one
internal duplicate is accepted, with `correctAnswer = 4 > 3` and options
that are not pairwise distinct. -/
theorem verifyAndReconcile_claim_counterexample :
    verifyAndReconcileQuestion
      { question := "q", options := ["a", "a", "b", "c", "d"], correctAnswerText := "d",
        explanation := "e" }
      = .ok { question := "q", options := ["a", "a", "b", "c", "d"], correctAnswer := 4,
              explanation := "e", verified := true }
    ∧ ¬ ((4 : Nat) ≤ 3)
    ∧ ¬ ((["a", "a", "b", "c", "d"].map normalizeText).Nodup) :=
  ⟨rfl, by decide, by decide⟩

/-- C1 amended: every accepted record's `correctAnswer` is the first option
index whose normalized text equals the normalized `correctAnswerText`, the
record has exactly 4 distinct normalized options, and — provided the record
has exactly 4 options — the index is ≤ 3 and the options are pairwise
distinct under normalization; when no option matches, stage 5 raises an
error. -/
theorem verifyAndReconcile_spec (qd : QuestionData) :
    (∀ v, verifyAndReconcileQuestion qd = .ok v →
      (∃ h : v.correctAnswer < qd.options.length,
          normalizeText (qd.options.get ⟨v.correctAnswer, h⟩)
            = normalizeText qd.correctAnswerText)
      ∧ (∀ j (hj : j < qd.options.length), j < v.correctAnswer →
          normalizeText (qd.options.get ⟨j, hj⟩) ≠ normalizeText qd.correctAnswerText)
      ∧ (qd.options.map normalizeText).dedup.length = 4
      ∧ (qd.options.length = 4 →
          v.correctAnswer ≤ 3 ∧ (qd.options.map normalizeText).Nodup)
      ∧ v.question = qd.question ∧ v.options = qd.options
      ∧ v.explanation = qd.explanation ∧ v.verified = true)
    ∧ ((∀ opt ∈ qd.options, normalizeText opt ≠ normalizeText qd.correctAnswerText) →
        verifyAndReconcileQuestion qd = .error "correctAnswerText not found in options") := by
  constructor
  · intro v hv
    rw [verifyAndReconcileQuestion] at hv
    cases hidx : qd.options.findIdx?
        (fun opt => normalizeText opt == normalizeText qd.correctAnswerText) with
    | none => rw [hidx] at hv; cases hv
    | some i =>
      rw [hidx] at hv
      have hv2 : (if (qd.options.map normalizeText).dedup.length ≠ 4 then
            (Except.error "Contains duplicate options" : Except String VerifiedQuestion)
          else .ok { question := qd.question, options := qd.options, correctAnswer := i,
                     explanation := qd.explanation, verified := true }) = .ok v := hv
      by_cases hded : (qd.options.map normalizeText).dedup.length ≠ 4
      · rw [if_pos hded] at hv2; cases hv2
      · rw [if_neg hded] at hv2
        obtain rfl := (Except.ok.inj hv2)
        push_neg at hded
        obtain ⟨hlt, hp, hfirst⟩ := List.findIdx?_eq_some_iff_getElem.mp hidx
        refine ⟨⟨hlt, by simpa using hp⟩, ?_, hded, ?_, rfl, rfl, rfl, rfl⟩
        · intro j hj hji
          have hj' := hfirst j hji
          simpa using hj'
        · intro h4
          refine ⟨by show i ≤ 3; omega, ?_⟩
          have hml : (qd.options.map normalizeText).length = 4 := by simp [h4]
          exact (dedup_length_eq_iff _).mp (by rw [hded, hml])
  · intro hnone
    rw [verifyAndReconcileQuestion]
    have hfi : qd.options.findIdx?
        (fun opt => normalizeText opt == normalizeText qd.correctAnswerText) = none := by
      rw [List.findIdx?_eq_none_iff]
      intro x hx
      simpa using hnone x hx
    rw [hfi]

theorem verifyAndReconcile_spec_witness :
    (∃ h : 1 < (["a", "b", "c", "d"] : List String).length,
        normalizeText ((["a", "b", "c", "d"] : List String).get ⟨1, h⟩)
          = normalizeText " B ")
    ∧ verifyAndReconcileQuestion
        { question := "q", options := ["a", "b", "c", "d"], correctAnswerText := "zzz",
          explanation := "e" }
        = .error "correctAnswerText not found in options" := by
  have h1 := (verifyAndReconcile_spec
    { question := "q", options := ["a", "b", "c", "d"], correctAnswerText := " B ",
      explanation := "e" }).1
    { question := "q", options := ["a", "b", "c", "d"], correctAnswer := 1,
      explanation := "e", verified := true } rfl
  have h2 := (verifyAndReconcile_spec
    { question := "q", options := ["a", "b", "c", "d"], correctAnswerText := "zzz",
      explanation := "e" }).2 (by decide)
  exact ⟨h1.1, h2⟩

/-- C9 counterexample: a parsed response of 3 strings succeeds for
`questionCount = 2` (the extras are trimmed), so the stage does not require
an array of exactly N strings. -/
theorem stage1_claim_counterexample :
    generateQuestionsOnly (some ["a", "b", "c"]) 2 = .ok ["a", "b"]
    ∧ (["a", "b", "c"] : List String).length ≠ 2 :=
  ⟨rfl, by decide⟩

/-- C9 amended: stage 1 succeeds iff the parsed response is an array of at
least N elements whose first N trimmed strings are pairwise distinct under
normalization (extras are dropped); a non-array, a short array, or a
duplicate raises an error; the outer loop retries the stage up to 2 more
times with a fixed 2000 ms sleep before each retry and then propagates the
last error. -/
theorem stage1_spec (resp : Nat → Option (List String)) (questionCount : Nat) :
    (∀ (l v : List String),
        generateQuestionsOnly (some l) questionCount = .ok v ↔
          (questionCount ≤ l.length ∧ v = (l.take questionCount).map jsTrim
            ∧ ((((l.take questionCount).map jsTrim).map normalizeText)).Nodup))
    ∧ (∀ v, generateQuestionsOnly none questionCount ≠ .ok v)
    ∧ (∀ v, generateQuestionsOnly (resp 0) questionCount = .ok v →
        stage1WithRetry resp questionCount = (.ok v, []))
    ∧ (∀ e0 v, generateQuestionsOnly (resp 0) questionCount = .error e0 →
        generateQuestionsOnly (resp 1) questionCount = .ok v →
        stage1WithRetry resp questionCount = (.ok v, [2000]))
    ∧ (∀ e0 e1 v, generateQuestionsOnly (resp 0) questionCount = .error e0 →
        generateQuestionsOnly (resp 1) questionCount = .error e1 →
        generateQuestionsOnly (resp 2) questionCount = .ok v →
        stage1WithRetry resp questionCount = (.ok v, [2000, 2000]))
    ∧ (∀ e0 e1 e2, generateQuestionsOnly (resp 0) questionCount = .error e0 →
        generateQuestionsOnly (resp 1) questionCount = .error e1 →
        generateQuestionsOnly (resp 2) questionCount = .error e2 →
        stage1WithRetry resp questionCount = (.error e2, [2000, 2000])) := by
  refine ⟨?_, ?_, ?_, ?_, ?_, ?_⟩
  · intro l v
    show (if l.length < questionCount then _ else _) = _ ↔ _
    by_cases hlen : l.length < questionCount
    · rw [if_pos hlen]
      simp [Nat.not_le.mpr hlen]
    · rw [if_neg hlen]
      set trimmed := (l.take questionCount).map jsTrim with htr
      by_cases hdup : (trimmed.map normalizeText).dedup.length = trimmed.length
      · have hnod : (trimmed.map normalizeText).Nodup :=
          (dedup_length_eq_iff _).mp (hdup.trans (List.length_map _ _).symm)
        rw [if_neg (by simpa using hdup)]
        simp [Nat.not_lt.mp hlen, hnod, eq_comm]
      · have hnod : ¬ (trimmed.map normalizeText).Nodup := fun hn => by
          have := (dedup_length_eq_iff (trimmed.map normalizeText)).mpr hn
          rw [List.length_map] at this
          exact hdup this
        rw [if_pos (by simpa using hdup)]
        simp [hnod]
  · intro v
    show Except.error _ ≠ _
    simp
  · intro v h0
    rw [stage1WithRetry, h0]
  · intro e0 v h0 h1
    rw [stage1WithRetry, h0, h1]
  · intro e0 e1 v h0 h1 h2
    rw [stage1WithRetry, h0, h1, h2]
  · intro e0 e1 e2 h0 h1 h2
    rw [stage1WithRetry, h0, h1, h2]

theorem stage1_spec_witness :
    stage1WithRetry
      (fun n => if n = 0 then some ["a", "a"] else if n = 1 then none else some ["x", "y"]) 2
      = (.ok ["x", "y"], [2000, 2000]) := by
  have h := (stage1_spec
    (fun n => if n = 0 then some ["a", "a"] else if n = 1 then none else some ["x", "y"])
    2).2.2.2.2.1
  exact h _ _ _ rfl rfl rfl

/-! ## Helper lemmas for stage 4 -/

theorem chunksOf5_join : ∀ (l : List QuestionData), (chunksOf5 l).join = l
  | [] => rfl
  | [a] => rfl
  | [a, b] => rfl
  | [a, b, c] => rfl
  | [a, b, c, d] => rfl
  | a :: b :: c :: d :: e :: rest => by
    simp [chunksOf5, chunksOf5_join rest]

theorem chunksOf5_mem : ∀ (l : List QuestionData) (b : List QuestionData),
    b ∈ chunksOf5 l → b ≠ [] ∧ b.length ≤ 5
  | [], b, hb => by cases hb
  | [a], b, hb => by
    rcases List.mem_singleton.mp hb with rfl
    exact ⟨by simp, by simp⟩
  | [a, a2], b, hb => by
    rcases List.mem_singleton.mp hb with rfl
    exact ⟨by simp, by simp⟩
  | [a, a2, a3], b, hb => by
    rcases List.mem_singleton.mp hb with rfl
    exact ⟨by simp, by simp⟩
  | [a, a2, a3, a4], b, hb => by
    rcases List.mem_singleton.mp hb with rfl
    exact ⟨by simp, by simp⟩
  | a :: a2 :: a3 :: a4 :: a5 :: rest, b, hb => by
    rcases List.mem_cons.mp hb with rfl | hb'
    · exact ⟨by simp, by simp⟩
    · exact chunksOf5_mem rest b hb'

theorem foldl_append_join {α β : Type} (f : α → List β) (ps : List α) :
    ∀ init, ps.foldl (fun acc p => acc ++ f p) init = init ++ (ps.map f).join := by
  induction ps with
  | nil => simp
  | cons p ps ih =>
    intro init
    rw [List.foldl_cons, ih, List.map_cons, List.join]
    simp [List.append_assoc]

theorem factCheckMerge_eq
    (respond : Nat → List QuestionData → Option (List CorrectedQuestion))
    (batches : List (List QuestionData)) :
    factCheckMerge respond batches
      = (batches.enum.map (fun p =>
          match respond p.1 p.2 with
          | some cb => if cb.length = p.2.length then cb.map cleanCorrected else p.2
          | none => p.2)).join := by
  have hbody : (fun (acc : List QuestionData) (p : Nat × List QuestionData) =>
      match respond p.1 p.2 with
      | some correctedBatch =>
        if correctedBatch.length = p.2.length then acc ++ correctedBatch.map cleanCorrected
        else acc ++ p.2
      | none => acc ++ p.2)
    = (fun acc p => acc ++ (match respond p.1 p.2 with
        | some cb => if cb.length = p.2.length then cb.map cleanCorrected else p.2
        | none => p.2)) := by
    funext acc p
    cases respond p.1 p.2 with
    | none => rfl
    | some cb =>
      by_cases hcb : cb.length = p.2.length <;> simp [hcb]
  rw [factCheckMerge, hbody, foldl_append_join]
  rfl

theorem dedupeByNorm_sublist :
    ∀ (l : List QuestionData) (seen : List String), List.Sublist (dedupeByNorm l seen) l := by
  intro l
  induction l with
  | nil => intro seen; simp [dedupeByNorm]
  | cons q rest ih =>
    intro seen
    rw [dedupeByNorm]
    by_cases hm : normalizeText q.question ∈ seen
    · simp only [hm, if_true]
      exact (ih seen).cons q
    · simp only [hm, if_false]
      exact (ih _).cons₂ q

theorem dedupeByNorm_nodup :
    ∀ (l : List QuestionData) (seen : List String),
      ((dedupeByNorm l seen).map (fun q => normalizeText q.question)).Nodup
      ∧ ∀ s ∈ (dedupeByNorm l seen).map (fun q => normalizeText q.question), s ∉ seen := by
  intro l
  induction l with
  | nil => intro seen; simp [dedupeByNorm]
  | cons q rest ih =>
    intro seen
    rw [dedupeByNorm]
    by_cases hm : normalizeText q.question ∈ seen
    · simp only [hm, if_true]
      exact ih seen
    · simp only [hm, if_false, List.map_cons]
      obtain ⟨ihn, ihs⟩ := ih (normalizeText q.question :: seen)
      refine ⟨List.nodup_cons.mpr ⟨?_, ihn⟩, ?_⟩
      · intro hin
        exact (ihs _ hin) (List.mem_cons_self _ _)
      · intro s hs
        rcases List.mem_cons.mp hs with rfl | hs'
        · exact hm
        · intro hseen
          exact (ihs s hs') (List.mem_cons_of_mem _ hseen)

theorem dedupeByNorm_preserve :
    ∀ (l : List QuestionData) (seen : List String) (q : QuestionData), q ∈ l →
      normalizeText q.question ∈ seen
      ∨ normalizeText q.question
          ∈ (dedupeByNorm l seen).map (fun q => normalizeText q.question) := by
  intro l
  induction l with
  | nil => intro seen q hq; cases hq
  | cons q' rest ih =>
    intro seen q hq
    rw [dedupeByNorm]
    by_cases hm : normalizeText q'.question ∈ seen
    · simp only [hm, if_true]
      rcases List.mem_cons.mp hq with rfl | hq'
      · exact Or.inl hm
      · exact ih seen q hq'
    · simp only [hm, if_false, List.map_cons]
      rcases List.mem_cons.mp hq with rfl | hq'
      · exact Or.inr (List.mem_cons_self _ _)
      · rcases ih (normalizeText q'.question :: seen) q hq' with hin | hin
        · rcases List.mem_cons.mp hin with heq | hseen
          · exact Or.inr (by rw [heq]; exact List.mem_cons_self _ _)
          · exact Or.inl hseen
        · exact Or.inr (List.mem_cons_of_mem _ hin)

theorem dedupeByNorm_of_nodup :
    ∀ (l : List QuestionData) (seen : List String),
      (l.map (fun q => normalizeText q.question)).Nodup →
      (∀ q ∈ l, normalizeText q.question ∉ seen) →
      dedupeByNorm l seen = l := by
  intro l
  induction l with
  | nil => intro seen _ _; rfl
  | cons q rest ih =>
    intro seen hnod hsep
    rw [dedupeByNorm]
    have hm : normalizeText q.question ∉ seen := hsep q (List.mem_cons_self _ _)
    simp only [hm, if_false]
    rw [List.map_cons, List.nodup_cons] at hnod
    congr 1
    refine ih _ hnod.2 ?_
    intro q' hq'
    intro hin
    rcases List.mem_cons.mp hin with heq | hseen
    · exact hnod.1 (heq ▸ List.mem_map_of_mem _ hq')
    · exact hsep q' (List.mem_cons_of_mem _ hq') hseen

/-- C8: stage 4 splits the records into mini-batches of 5 (covering the
input exactly); a batch whose response count mismatches (or is not an array)
passes through unmodified, so the merged result is the concatenation of
per-batch results; the final sweep removes questions whose normalized text
collides with an earlier one, keeping first occurrences, so the output's
normalized question texts are pairwise distinct, the output is a sublist of
the merged list, and no normalized text is lost. -/
theorem factCheck_spec
    (respond : Nat → List QuestionData → Option (List CorrectedQuestion))
    (qs : List QuestionData) :
    (chunksOf5 qs).join = qs
    ∧ (∀ b ∈ chunksOf5 qs, b ≠ [] ∧ b.length ≤ 5)
    ∧ factCheckAndCorrectQuestions respond qs
        = dedupeByNorm
            (((chunksOf5 qs).enum.map (fun p =>
                match respond p.1 p.2 with
                | some cb => if cb.length = p.2.length then cb.map cleanCorrected else p.2
                | none => p.2)).join) []
    ∧ (((factCheckAndCorrectQuestions respond qs).map
          (fun q => normalizeText q.question)).Nodup)
    ∧ List.Sublist (factCheckAndCorrectQuestions respond qs)
        (factCheckMerge respond (chunksOf5 qs))
    ∧ ∀ q ∈ factCheckMerge respond (chunksOf5 qs),
        normalizeText q.question
          ∈ (factCheckAndCorrectQuestions respond qs).map
              (fun q => normalizeText q.question) := by
  have hfc : factCheckAndCorrectQuestions respond qs
      = dedupeByNorm (factCheckMerge respond (chunksOf5 qs)) [] := by
    rw [factCheckAndCorrectQuestions]
    by_cases hd : ((factCheckMerge respond (chunksOf5 qs)).map
        (fun q => normalizeText q.question)).dedup.length
        = (factCheckMerge respond (chunksOf5 qs)).length
    · rw [if_neg (by simpa using hd)]
      have hnod : ((factCheckMerge respond (chunksOf5 qs)).map
          (fun q => normalizeText q.question)).Nodup :=
        (dedup_length_eq_iff _).mp (hd.trans (List.length_map _ _).symm)
      exact (dedupeByNorm_of_nodup _ [] hnod (fun q _ h => by cases h)).symm
    · rw [if_pos (by simpa using hd)]
  refine ⟨chunksOf5_join qs, fun b hb => chunksOf5_mem qs b hb, ?_, ?_, ?_, ?_⟩
  · rw [hfc, factCheckMerge_eq]
  · rw [hfc]
    exact (dedupeByNorm_nodup _ _).1
  · rw [hfc]
    exact dedupeByNorm_sublist _ _
  · intro q hq
    rw [hfc]
    rcases dedupeByNorm_preserve _ [] q hq with hin | hin
    · cases hin
    · exact hin

theorem factCheck_spec_witness :
    ((factCheckAndCorrectQuestions
        (fun _ b => some (b.map (fun q =>
          { question := "Same", options := q.options,
            correctAnswerText := q.correctAnswerText, explanation := q.explanation,
            corrected := true, corrections := "rephrased" })))
        [{ question := "Q1", options := ["a", "b", "c", "d"], correctAnswerText := "a",
           explanation := "e" },
         { question := "Q2", options := ["a", "b", "c", "d"], correctAnswerText := "a",
           explanation := "e" }]).map (fun q => normalizeText q.question)).Nodup
    ∧ normalizeText
        ({ question := "Same", options := ["a", "b", "c", "d"], correctAnswerText := "a",
           explanation := "e" } : QuestionData).question
        ∈ ((factCheckAndCorrectQuestions
            (fun _ b => some (b.map (fun q =>
              { question := "Same", options := q.options,
                correctAnswerText := q.correctAnswerText, explanation := q.explanation,
                corrected := true, corrections := "rephrased" })))
            [{ question := "Q1", options := ["a", "b", "c", "d"], correctAnswerText := "a",
               explanation := "e" },
             { question := "Q2", options := ["a", "b", "c", "d"], correctAnswerText := "a",
               explanation := "e" }]).map (fun q => normalizeText q.question)) := by
  have h := factCheck_spec
    (fun _ b => some (b.map (fun q =>
      { question := "Same", options := q.options,
        correctAnswerText := q.correctAnswerText, explanation := q.explanation,
        corrected := true, corrections := "rephrased" })))
    [{ question := "Q1", options := ["a", "b", "c", "d"], correctAnswerText := "a",
       explanation := "e" },
     { question := "Q2", options := ["a", "b", "c", "d"], correctAnswerText := "a",
       explanation := "e" }]
  exact ⟨h.2.2.2.1, h.2.2.2.2.2 _ (by decide)⟩

/-! ## Helper lemmas for the session store -/

theorem lookup_filter_ne_self {β : Type} (l : List (String × β)) (sid : String) :
    ((l.filter fun p => p.1 != sid).lookup sid) = none := by
  induction l with
  | nil => rfl
  | cons p rest ih =>
    obtain ⟨a, v⟩ := p
    rw [List.filter_cons]
    by_cases ha : a = sid
    · simp [ha, ih]
    · simp only [bne_iff_ne, ne_eq, ha, not_false_eq_true, if_true, List.lookup_cons]
      rw [show (sid == a) = false from beq_eq_false_iff_ne.mpr (fun he => ha he.symm)]
      exact ih

theorem lookup_filter_other {β : Type} (l : List (String × β)) (s sid : String)
    (h : sid ≠ s) :
    (l.filter fun p => p.1 != s).lookup sid = l.lookup sid := by
  induction l with
  | nil => rfl
  | cons p rest ih =>
    obtain ⟨a, v⟩ := p
    rw [List.filter_cons]
    by_cases has : a = s
    · simp only [has, bne_self_eq_false, Bool.false_eq_true, if_false, ih, List.lookup_cons]
      rw [show (sid == s) = false from beq_eq_false_iff_ne.mpr h]
    · simp only [bne_iff_ne, ne_eq, has, not_false_eq_true, if_true, List.lookup_cons]
      cases hsa : sid == a
      · exact ih
      · rfl

theorem lookup_filter_isSome {β : Type} (l : List (String × β)) (f : String × β → Bool)
    (k : String) (h : ((l.filter f).lookup k).isSome = true) :
    (l.lookup k).isSome = true := by
  induction l with
  | nil => simp at h
  | cons p rest ih =>
    obtain ⟨a, v⟩ := p
    rw [List.filter_cons] at h
    rw [List.lookup_cons]
    cases hka : k == a
    · cases hf : f (a, v)
      · rw [hf, if_neg Bool.false_ne_true] at h
        exact ih h
      · rw [hf, if_pos rfl, List.lookup_cons, hka] at h
        exact ih h
    · rfl

theorem lookup_storeSet_self (st : Store) (sid : String) (sess : StoredSession) :
    (storeSet st sid sess).lookup sid = some sess := by
  rw [storeSet, List.lookup_append, lookup_filter_ne_self, Option.none_or,
    List.lookup_cons_self]

theorem lookup_storeSet_other (st : Store) (s sid : String) (sess : StoredSession)
    (h : s ≠ sid) :
    (storeSet st s sess).lookup sid = st.lookup sid := by
  rw [storeSet, List.lookup_append, lookup_filter_other st s sid (fun he => h he.symm)]
  have h2 : ([(s, sess)] : Store).lookup sid = none := by
    rw [List.lookup_cons]
    rw [show (sid == s) = false from beq_eq_false_iff_ne.mpr (fun he => h he.symm)]
    rfl
  rw [h2]
  cases st.lookup sid <;> rfl

theorem getQuizSession_some {now : Int} {store : Store} {sid : String}
    {sess : StoredSession} {store1 : Store}
    (h : getQuizSession now store sid = (some sess, store1)) :
    store.lookup sid = some sess ∧ store1 = store := by
  rw [getQuizSession] at h
  cases hl : store.lookup sid with
  | none => rw [hl] at h; cases h
  | some s0 =>
    rw [hl] at h
    have h2 : (if (s0.expiresAt != 0 && decide (now > s0.expiresAt)) = true
        then ((none, deleteQuizSession store sid) : Option StoredSession × Store)
        else (some s0, store)) = (some sess, store1) := h
    by_cases hexp : (s0.expiresAt != 0 && decide (now > s0.expiresAt)) = true
    · rw [if_pos hexp] at h2; cases h2
    · rw [if_neg hexp] at h2
      have hfst := congrArg Prod.fst h2
      have hsnd := congrArg Prod.snd h2
      simp only at hfst hsnd
      exact ⟨hfst, hsnd.symm⟩

theorem getQuizSession_filter (now : Int) (store : Store) (sid : String) :
    ∃ f, (getQuizSession now store sid).2 = store.filter f := by
  rw [getQuizSession]
  cases hl : store.lookup sid with
  | none =>
    exact ⟨fun _ => true, (List.filter_eq_self.mpr (fun _ _ => rfl)).symm⟩
  | some s0 =>
    show ∃ f, (if (s0.expiresAt != 0 && decide (now > s0.expiresAt)) = true
        then ((none, deleteQuizSession store sid) : Option StoredSession × Store)
        else (some s0, store)).2 = store.filter f
    by_cases hexp : (s0.expiresAt != 0 && decide (now > s0.expiresAt)) = true
    · rw [if_pos hexp]
      exact ⟨fun p => p.1 != sid, rfl⟩
    · rw [if_neg hexp]
      exact ⟨fun _ => true, (List.filter_eq_self.mpr (fun _ _ => rfl)).symm⟩

theorem getQuizSession_of_lookup_none {now : Int} {store : Store} {sid : String}
    (h : store.lookup sid = none) :
    getQuizSession now store sid = (none, store) := by
  rw [getQuizSession, h]

/-- A successful submission implies the session was present, was deleted
from the resulting store, the store only shrank, and the request passed the
required-fields guard. -/
theorem submitQuiz_success {sha : String → String} {k : String} {now : Int}
    {store : Store} {req : SubmitRequest} {res : QuizResults} {store' : Store}
    (h : submitQuiz sha k now store req = (.success res, store')) :
    (store.lookup req.sessionId).isSome = true
    ∧ store'.lookup req.sessionId = none
    ∧ (∃ f, store' = store.filter f)
    ∧ req.sessionId ≠ "" := by
  rw [submitQuiz] at h
  split at h
  · simp at h
  · rename_i hguard
    split at h
    · simp at h
    · rename_i session store1 heq
      split at h
      · simp at h
      · rename_i validation hval
        split at h
        · simp at h
        · have hsnd := congrArg Prod.snd h
          simp only at hsnd
          obtain ⟨hl, hst⟩ := getQuizSession_some heq
          subst hst
          refine ⟨by rw [hl]; rfl, ?_, ?_, fun he => hguard (Or.inl he)⟩
          · rw [← hsnd]
            exact lookup_filter_ne_self _ _
          · exact ⟨fun p => p.1 != req.sessionId, hsnd.symm⟩

/-- The submit route never adds entries: its resulting store is a filter of
the starting store. -/
theorem submitQuiz_filter (sha : String → String) (k : String) (now : Int)
    (store : Store) (req : SubmitRequest) :
    ∃ f, (submitQuiz sha k now store req).2 = store.filter f := by
  rw [submitQuiz]
  split
  · exact ⟨fun _ => true, (List.filter_eq_self.mpr (fun _ _ => rfl)).symm⟩
  · split
    · rename_i store1 heq
      obtain ⟨f, hf⟩ := getQuizSession_filter now store req.sessionId
      refine ⟨f, ?_⟩
      show store1 = store.filter f
      rw [← hf, heq]
    · rename_i session store1 heq
      obtain ⟨f, hf⟩ := getQuizSession_filter now store req.sessionId
      have hst1 : store1 = store.filter f := by rw [← hf, heq]
      split
      · exact ⟨f, hst1⟩
      · split
        · exact ⟨f, hst1⟩
        · refine ⟨fun p => (p.1 != req.sessionId) && f p, ?_⟩
          show deleteQuizSession store1 req.sessionId = _
          rw [deleteQuizSession, hst1, List.filter_filter]

theorem createCount_cons_create (sid s : String) (sess : StoredSession)
    (rest : List Op) :
    createCount sid (Op.create s sess :: rest)
      = (if s = sid then 1 else 0) + createCount sid rest := by
  rw [createCount, createCount, List.countP_cons]
  by_cases hs : s = sid <;> simp [hs, Nat.add_comm]

theorem createCount_cons_submit (sid : String) (now : Int) (req : SubmitRequest)
    (rest : List Op) :
    createCount sid (Op.submit now req :: rest) = createCount sid rest := by
  rw [createCount, createCount, List.countP_cons]
  simp

/-- Trace invariant: however many operations run, a given session id is
graded at most once per presence-in-store plus per `create` event for it. -/
theorem runCount_le (sha : String → String) (k : String) (sid : String) :
    ∀ (ops : List Op) (s0 : Store),
      (runCount sha k sid s0 ops).2
        ≤ (if (s0.lookup sid).isSome = true then 1 else 0) + createCount sid ops := by
  intro ops
  induction ops with
  | nil =>
    intro s0
    rw [runCount]
    simp [createCount]
  | cons op rest ih =>
    intro s0
    cases op with
    | create s sess =>
      rw [runCount, createCount_cons_create]
      have hs := ih (storeSet s0 s sess)
      by_cases hss : s = sid
      · subst hss
        rw [lookup_storeSet_self] at hs
        rw [if_pos (show (some sess).isSome = true from rfl)] at hs
        rw [if_pos rfl]
        omega
      · rw [lookup_storeSet_other s0 s sid sess hss] at hs
        rw [if_neg hss]
        omega
    | submit now req =>
      rw [runCount, createCount_cons_submit]
      have htail := ih (submitQuiz sha k now s0 req).2
      by_cases hbb : (isSuccess (submitQuiz sha k now s0 req).1
          && (req.sessionId == sid)) = true
      · rw [if_pos hbb]
        obtain ⟨hsucc, hsid⟩ := Bool.and_eq_true_iff.mp hbb
        have hsid' : req.sessionId = sid := beq_iff_eq.mp hsid
        cases hres : (submitQuiz sha k now s0 req).1 with
        | success res =>
          have heq : submitQuiz sha k now s0 req
              = (.success res, (submitQuiz sha k now s0 req).2) := by
            rw [← hres]
          obtain ⟨hsome, hnone, _, _⟩ := submitQuiz_success heq
          rw [hsid'] at hsome hnone
          rw [hnone] at htail
          simp only [Option.isSome_none, Bool.false_eq_true, if_false, Nat.zero_add] at htail
          rw [if_pos hsome]
          omega
        | badRequest m => rw [hres] at hsucc; simp [isSuccess] at hsucc
        | notFound m => rw [hres] at hsucc; simp [isSuccess] at hsucc
        | invalidSubmission m es => rw [hres] at hsucc; simp [isSuccess] at hsucc
        | serverError m => rw [hres] at hsucc; simp [isSuccess] at hsucc
      · rw [if_neg hbb]
        have hmono : (((submitQuiz sha k now s0 req).2).lookup sid).isSome = true →
            (s0.lookup sid).isSome = true := by
          intro hss
          obtain ⟨f, hf⟩ := submitQuiz_filter sha k now s0 req
          rw [hf] at hss
          exact lookup_filter_isSome _ _ _ hss
        by_cases hp : (s0.lookup sid).isSome = true
        · rw [if_pos hp]
          have hb1 : (if (((submitQuiz sha k now s0 req).2).lookup sid).isSome = true
              then 1 else 0) ≤ 1 := by split <;> omega
          omega
        · rw [if_neg hp]
          have hz : ¬ ((((submitQuiz sha k now s0 req).2).lookup sid).isSome = true) :=
            fun hss => hp (hmono hss)
          rw [if_neg hz] at htail
          omega

/-- C6: after a successful submission the session is deleted, so a second
well-formed submission with the same sessionId/sessionHash fails with the
not-found response and leaves the store unchanged; and across any trace of
operations, a session id is graded at most once per store-presence plus
`create` event (so with collision-resistant, never-reused ids, at most
once). -/
theorem submitQuiz_single_use (sha : String → String) (k : String)
    (now now2 : Int) (store : Store) (req : SubmitRequest)
    (res : QuizResults) (store1 : Store)
    (h : submitQuiz sha k now store req = (.success res, store1))
    (req2 : SubmitRequest) (h2 : req2.sessionId = req.sessionId)
    (hg2 : req2.sessionHash ≠ "") (hg3 : req2.userAnswers ≠ UserAnswers.jsNull)
    (hg4 : req2.submitTime ≠ 0) :
    store1.lookup req.sessionId = none
    ∧ submitQuiz sha k now2 store1 req2
        = (.notFound "Quiz session not found or expired", store1)
    ∧ ∀ (s0 : Store) (ops : List Op),
        (runCount sha k req.sessionId s0 ops).2
          ≤ (if (s0.lookup req.sessionId).isSome = true then 1 else 0)
            + createCount req.sessionId ops := by
  obtain ⟨hsome, hnone, hfil, hsid⟩ := submitQuiz_success h
  refine ⟨hnone, ?_, fun s0 ops => runCount_le sha k req.sessionId ops s0⟩
  rw [submitQuiz]
  rw [if_neg ?hg]
  case hg =>
    rintro (he | he | he | he)
    · exact hsid (h2 ▸ he)
    · exact hg2 he
    · exact hg3 he
    · exact hg4 he
  rw [h2, getQuizSession_of_lookup_none hnone]

theorem submitQuiz_single_use_witness :
    (([] : Store).lookup "s1") = none
    ∧ submitQuiz id "k" 3000 ([] : Store)
        { sessionId := "s1", sessionHash := generateQuizHash id "k" "s1" 1000 600,
          userAnswers := .arr [], submitTime := 2000 }
        = (.notFound "Quiz session not found or expired", ([] : Store))
    ∧ (runCount id "k" "s1" ([] : Store) []).2
        ≤ (if ((([] : Store)).lookup "s1").isSome = true then 1 else 0)
          + createCount "s1" [] := by
  have h := submitQuiz_single_use id "k" 1500 3000
    [("s1", { questions := [], startTime := 1000, timeLimit := 600, topic := "t",
              difficulty := "easy", expiresAt := 0 })]
    { sessionId := "s1", sessionHash := generateQuizHash id "k" "s1" 1000 600,
      userAnswers := .arr [], submitTime := 2000 }
    { scoreDetails :=
        { totalQuestions := 0, correctAnswers := 0, wrongAnswers := 0,
          score := JSNum.nan, mistakes := [] },
      timeTaken := 1, timeLimit := 600, topic := "t", difficulty := "easy",
      detailedMistakes := [], submittedAt := 2000 }
    ([] : Store)
    rfl
    { sessionId := "s1", sessionHash := generateQuizHash id "k" "s1" 1000 600,
      userAnswers := .arr [], submitTime := 2000 }
    rfl (by decide) (by decide) (by decide)
  exact ⟨h.1, h.2.1, h.2.2 [] []⟩

end Acemind
